import Mathlib

/-!
Shallow embedding of the core mapping engine of `app.py` (a CSV → RDF
converter).  Python values that may be `None`, a float NaN, or a string are
modelled by `PyVal`; dataset cells (which pandas presents as either a string
or NaN) by `CellValue`.  Strings are modelled as Lean `String`/`List Char`;
the Unicode-sensitive pieces of Python (`str.lower`, `str.strip`, the `re`
module's `\s` class) are modelled over the character sets that can actually
reach them in this program (ASCII plus the explicit transliteration table and
the common Unicode whitespace code points), as noted at each definition.
All regular-expression steps of the source are translated operationally,
following Python `re` leftmost-match semantics.
-/

set_option maxRecDepth 8000

namespace App

/-- Python value flowing into the helper functions: `None`, a float NaN, or a
string.  `pd.isna` is true exactly on the first two. -/
inductive PyVal where
  | none
  | nan
  | str (s : String)
deriving DecidableEq

/-- Content of one dataset cell as pandas hands it to `row.get`: either NaN
(missing value) or a string. -/
inductive CellValue where
  | na
  | str (s : String)
deriving DecidableEq

/-- Python `str(value)` on a cell: `str(float('nan')) = "nan"`. -/
def pyStrOf : CellValue → String
  | .na => "nan"
  | .str s => s

/-- Whitespace code points recognised by Python's `str.strip()` and the `re`
module's `\s` class (ASCII whitespace, the C1 controls Python treats as
space, and the Unicode space separators). -/
def ws_chars : List Char :=
  ['\t', '\n', '\x0b', '\x0c', '\r', '\x1c', '\x1d', '\x1e', '\x1f', ' ',
   '\x85', '\xa0', ' ', ' ', ' ', ' ', ' ',
   ' ', ' ', ' ', ' ', ' ', ' ', ' ',
   ' ', ' ', ' ', ' ', '　']

def isPySpace (c : Char) : Bool := ws_chars.contains c

/-- Python `str.strip()` on a character list. -/
def stripL (l : List Char) : List Char :=
  ((l.dropWhile isPySpace).reverse.dropWhile isPySpace).reverse

/-- Python `str.strip()`. -/
def pyStrip (s : String) : String := String.mk (stripL s.data)

/-- Python `s.split(sep)` for a one-character separator: splits at every
occurrence, keeps empty pieces, and yields `[""]` on the empty string. -/
def splitChar (sep : Char) : List Char → List (List Char)
  | [] => [[]]
  | c :: t =>
    match splitChar sep t with
    | [] => if c = sep then [[], []] else [[c]]
    | h :: r => if c = sep then [] :: h :: r else (c :: h) :: r

def pySplit (s : String) (sep : Char) : List String :=
  (splitChar sep s.data).map String.mk

/-- ASCII lower-case table: the pairing Python `str.lower()` applies on the
ASCII letters.  In `clean_for_uri` the full `str.lower()` runs after every
non-`[a-zA-Z0-9_-]` character has been removed, so on that call site this
table is exactly Python's behaviour; in `valid_literal` it is used only to
compare against the ASCII words `"nan"` and `""`, and in
`detect_publication_type` only against ASCII patterns. -/
def lower_pairs : List (Char × Char) :=
  [('A', 'a'), ('B', 'b'), ('C', 'c'), ('D', 'd'), ('E', 'e'), ('F', 'f'),
   ('G', 'g'), ('H', 'h'), ('I', 'i'), ('J', 'j'), ('K', 'k'), ('L', 'l'),
   ('M', 'm'), ('N', 'n'), ('O', 'o'), ('P', 'p'), ('Q', 'q'), ('R', 'r'),
   ('S', 's'), ('T', 't'), ('U', 'u'), ('V', 'v'), ('W', 'w'), ('X', 'x'),
   ('Y', 'y'), ('Z', 'z')]

def pyLowerChar (c : Char) : Char :=
  (((lower_pairs.find? (fun p => p.1 = c)).map (fun p => p.2)).getD c)

def pyLower (s : String) : String := String.mk (s.data.map pyLowerChar)

/-- Transliteration table of `clean_for_uri`
(`str.maketrans('áéíóúüñÁÉÍÓÚÜÑ', 'aeiouunAEIOUUN')`). -/
def translate_pairs : List (Char × Char) :=
  [('á', 'a'), ('é', 'e'), ('í', 'i'), ('ó', 'o'), ('ú', 'u'), ('ü', 'u'),
   ('ñ', 'n'), ('Á', 'A'), ('É', 'E'), ('Í', 'I'), ('Ó', 'O'), ('Ú', 'U'),
   ('Ü', 'U'), ('Ñ', 'N')]

def translateChar (c : Char) : Char :=
  (((translate_pairs.find? (fun p => p.1 = c)).map (fun p => p.2)).getD c)

/-- Character class removed by the second substitution of `clean_for_uri`:
angle brackets, colon, quote, slashes, pipe, wildcards, parentheses, braces,
square brackets, period, comma, semicolon, apostrophe, curly quote (braces
written with their code points). -/
def punct_chars : List Char :=
  ['<', '>', ':', '"', '/', '\\', '|', '?', '*', '(', ')', '\x7b', '\x7d',
   '[', ']', '.', ',', ';', '\'', '’']

/-- Character class `[a-zA-Z0-9_-]` kept by the fourth substitution. -/
def allowed_chars : List Char :=
  ['a', 'b', 'c', 'd', 'e', 'f', 'g', 'h', 'i', 'j', 'k', 'l', 'm', 'n',
   'o', 'p', 'q', 'r', 's', 't', 'u', 'v', 'w', 'x', 'y', 'z',
   'A', 'B', 'C', 'D', 'E', 'F', 'G', 'H', 'I', 'J', 'K', 'L', 'M', 'N',
   'O', 'P', 'Q', 'R', 'S', 'T', 'U', 'V', 'W', 'X', 'Y', 'Z',
   '0', '1', '2', '3', '4', '5', '6', '7', '8', '9', '_', '-']

def allowedChar (c : Char) : Bool := allowed_chars.contains c

/-- Character class `[a-z0-9_-]` of the spec's output guarantee. -/
def good_chars : List Char :=
  ['a', 'b', 'c', 'd', 'e', 'f', 'g', 'h', 'i', 'j', 'k', 'l', 'm', 'n',
   'o', 'p', 'q', 'r', 's', 't', 'u', 'v', 'w', 'x', 'y', 'z',
   '0', '1', '2', '3', '4', '5', '6', '7', '8', '9', '_', '-']

def goodChar (c : Char) : Bool := good_chars.contains c

/-- Replacement of every maximal run of characters satisfying `p` by the
single character `r`, the behaviour of `re.sub(p-class ++ "+", r, _)`. -/
def collapseRuns (p : Char → Bool) (r : Char) : List Char → List Char
  | [] => []
  | [c] => if p c then [r] else [c]
  | a :: b :: t =>
    if p a && p b then collapseRuns p r (b :: t)
    else (if p a then r else a) :: collapseRuns p r (b :: t)

def isUnderscore (c : Char) : Bool := c = '_'

/-- Pipeline of `clean_for_uri` on a non-empty string (source lines 22-29):
transliterate, delete the punctuation class, turn whitespace runs into `_`,
delete everything outside `[a-zA-Z0-9_-]`, collapse `_` runs, lower-case. -/
def cleanText (s : String) : String :=
  String.mk
    ((collapseRuns isUnderscore '_'
      (List.filter allowedChar
        (collapseRuns isPySpace '_'
          (List.filter (fun c => !(punct_chars.contains c))
            (s.data.map translateChar))))).map pyLowerChar)

/-- Model of `clean_for_uri` (source lines 20-29).  `not text or pd.isna(text)`
is true exactly on `None`, NaN and the empty string. -/
def clean_for_uri : PyVal → String
  | .none => "unknown"
  | .nan => "unknown"
  | .str s => if s = "" then "unknown" else cleanText s

/-- Model of `valid_literal` (source lines 33-36) applied to the result of a
`row.get` (which yields `None` when the column is absent). -/
def valid_literal : Option CellValue → Option String
  | Option.none => Option.none
  | Option.some .na => Option.none
  | Option.some (.str v) =>
    let s := pyStrip v
    if pyLower s = "nan" ∨ s = "" then Option.none else Option.some s

/-- Search, right to left, for the opening parenthesis of the parenthetical
group matched by `re.sub(r'\s*,?\s*\([^)]*\)\s*$', '', _)`: the list is the
reversed string after the closing parenthesis; the result is the reversed
remainder left of the leftmost `(` that has no `)` between itself and the
closing parenthesis (leftmost-match semantics of `re`). -/
def findOpenRev : List Char → Option (List Char) → Option (List Char)
  | [], best => best
  | c :: t, best =>
    if c = ')' then best
    else if c = '(' then findOpenRev t (Option.some t)
    else findOpenRev t best

/-- First substitution of `normalize_organization_name`: strip one trailing
parenthetical group, optionally preceded by a comma, from the end. -/
def stripParenGroup (s : String) : String :=
  match s.data.reverse.dropWhile isPySpace with
  | ')' :: rest =>
    match findOpenRev rest Option.none with
    | Option.some r2 =>
      let r3 := r2.dropWhile isPySpace
      let r4 := match r3 with
        | ',' :: t => t.dropWhile isPySpace
        | _ => r3
      String.mk r4.reverse
    | Option.none => s
  | _ => s

def isUpperAZ (c : Char) : Bool := 'A' ≤ c && c ≤ 'Z'

/-- Second substitution of `normalize_organization_name`:
`re.sub(r'\s*,\s*[A-Z]{2,10}\s*$', '', _)` strips a trailing comma followed
by a 2-10 character upper-case token.  A trailing upper-case run longer than
10 cannot match (the character before the counted block would have to be a
comma or whitespace but is upper-case). -/
def stripAbbrevSuffix (s : String) : String :=
  let r := s.data.reverse.dropWhile isPySpace
  let u := r.takeWhile isUpperAZ
  if 2 ≤ u.length ∧ u.length ≤ 10 then
    match (r.drop u.length).dropWhile isPySpace with
    | ',' :: t => String.mk ((t.dropWhile isPySpace).reverse)
    | _ => s
  else s

/-- Model of `normalize_organization_name` (source lines 40-47).  Note the
source returns the *string* produced by the substitutions, even when it is
empty; only `None`/NaN/blank input yields `None`. -/
def normalize_organization_name : PyVal → Option String
  | .none => Option.none
  | .nan => Option.none
  | .str s0 =>
    let s := pyStrip s0
    if s = "" then Option.none
    else
      Option.some
        (pyStrip (String.mk
          (collapseRuns isPySpace ' ' (stripAbbrevSuffix (stripParenGroup s)).data)))

/-- Substring test (Python's `p in s`). -/
def containsSeq (hay pat : List Char) : Bool :=
  if pat.isPrefixOf hay then true
  else
    match hay with
    | [] => false
    | _ :: t => containsSeq t pat

def strContains (hay pat : String) : Bool := containsSeq hay.data pat.data

def conference_patterns : List String :=
  ["conference", "conf", "congress", "symposium", "proceedings"]

def journal_patterns : List String :=
  ["journal", "revista", "review", "bulletin", "transactions"]

def book_series_patterns : List String :=
  ["lecture notes", "series", "advances in"]

/-- Python truthiness of an optional string (`None` and `""` are falsy). -/
def falsyStrOpt : Option String → Bool
  | Option.none => true
  | Option.some s => s = ""

/-- Entity-type section of the YAML configuration.  `scholarly_article` models
`types.get('scholarly_article', …)` (the key may be absent; its value is a
list); the other four are accessed with `types[...]` and are mandatory; the
three `publication_types_*` fields model the two-level `get` on the
`publication_types` sub-table, whose entries may each be absent. -/
structure EntityTypes where
  scholarly_article : Option (List String)
  author : String
  funding_organization : String
  keyword : String
  citation_observation : String
  publication_types_conference : Option String
  publication_types_journal : Option String
  publication_types_book_series : Option String
deriving DecidableEq

/-- Column-mapping section of the configuration.  The first ten keys are read
with `cols[...]` (mandatory); the six literal-mapping keys are read with
`cols.get(...)` and may be absent. -/
structure ColumnMappings where
  main_entity_identifier : String
  year : String
  doi : String
  link : String
  author_full_names : String
  author_ids : String
  author_abbreviations : String
  source_title : String
  funding_details : String
  cited_by : String
  title : Option String
  abstract : Option String
  volume : Option String
  issue : Option String
  page_start : Option String
  page_end : Option String
deriving DecidableEq

/-- Configuration document handed to the engine.  `namespaces` models the
prefix → URI dictionary; `inspection_date` and `output_format` come from the
`settings` section; `keyword_columns` from `keyword_settings.columns`. -/
structure Config where
  namespaces : List (String × String)
  base_uri : String
  column_mappings : ColumnMappings
  entity_types : EntityTypes
  keyword_columns : List String
  inspection_date : String
  output_format : String
deriving DecidableEq

/-- Model of `detect_publication_type` (source lines 51-78).  The result is
`none` exactly when Python raises `IndexError`: the expression
`types.get('scholarly_article', ['schema:CreativeWork'])[0]` indexes an
*empty* configured list (the default list applies only when the key is
absent). -/
def detect_publication_type (source_title : Option String) (cfg : Config) :
    Option (String × Option String) :=
  let types := cfg.entity_types
  let defaultType : Option (String × Option String) :=
    match types.scholarly_article with
    | Option.none => Option.some ("schema:CreativeWork", Option.none)
    | Option.some [] => Option.none
    | Option.some (t :: _) => Option.some (t, Option.none)
  if falsyStrOpt source_title then defaultType
  else
    let source_lower := pyLower (source_title.getD "")
    if conference_patterns.any (fun p => strContains source_lower p) then
      Option.some ("schema:Event", types.publication_types_conference)
    else if journal_patterns.any (fun p => strContains source_lower p) then
      Option.some ("schema:Periodical", types.publication_types_journal)
    else if book_series_patterns.any (fun p => strContains source_lower p) then
      Option.some ("schema:BookSeries", types.publication_types_book_series)
    else defaultType

def isDigitChar (c : Char) : Bool := '0' ≤ c && c ≤ '9'

/-- Runs of two identical characters test used for the digit grammar and for
underscore collapsing proofs. -/
def noDoubleChar (d : Char) : List Char → Bool
  | [] => true
  | [_] => true
  | a :: b :: t => !(a = d && b = d) && noDoubleChar d (b :: t)

def digitsVal (l : List Char) : Nat :=
  l.foldl (fun a c => a * 10 + (c.toNat - 48)) 0

/-- Python `int(s)` digit block: ASCII digits with single underscores allowed
between digits (Unicode digits are out of the modelled character set). -/
def pyIntDigits (l : List Char) : Option Nat :=
  match l with
  | [] => Option.none
  | c :: _ =>
    if isDigitChar c && (match l.getLast? with
          | Option.some d => isDigitChar d
          | Option.none => false)
        && l.all (fun x => isDigitChar x || x = '_') && noDoubleChar '_' l then
      Option.some (digitsVal (l.filter isDigitChar))
    else Option.none

/-- Model of Python `int(s)` on a string: optional surrounding whitespace,
optional sign, then the digit block; `none` models `ValueError`. -/
def pyInt (s : String) : Option Int :=
  let l := stripL s.data
  match l with
  | '+' :: t => (pyIntDigits t).map (fun n => (n : Int))
  | '-' :: t => (pyIntDigits t).map (fun n => -(n : Int))
  | t => (pyIntDigits t).map (fun n => (n : Int))

/-- RDF node: a URI, a plain literal, a datatyped literal, or a
language-tagged literal. -/
inductive Node where
  | uri (u : String)
  | lit (s : String)
  | litT (s : String) (dt : String)
  | litL (s : String) (lang : String)
deriving DecidableEq

/-- RDF triple (subject, predicate, object). -/
abbrev Triple := Node × Node × Node

/-- The `rdflib` constants used directly by the source. -/
def rdfType : Node := Node.uri "http://www.w3.org/1999/02/22-rdf-syntax-ns#type"

def xsdGYear : String := "http://www.w3.org/2001/XMLSchema#gYear"

def xsdInteger : String := "http://www.w3.org/2001/XMLSchema#integer"

def xsdDate : String := "http://www.w3.org/2001/XMLSchema#date"

/-- An `rdflib` graph is a set of triples; `add` is idempotent.  The set is
modelled as a duplicate-free list in insertion order, so `len(g)` is the list
length. -/
def addT (g : List Triple) (t : Triple) : List Triple :=
  if t ∈ g then g else g ++ [t]

/-- Split a string at the first occurrence of a separator (Python
`s.split(sep, 1)` when the separator occurs). -/
def splitFirst (sep : Char) : List Char → Option (List Char × List Char)
  | [] => Option.none
  | c :: t =>
    if c = sep then Option.some ([], t)
    else (splitFirst sep t).map (fun p => (c :: p.1, p.2))

/-- Model of the inner `resolve_prefix` (source lines 100-104): a token
without a colon is already a URI; otherwise split at the first colon and
expand through the namespace table, falling back to the placeholder
namespace for unknown prefixes. -/
def resolve_prefixed_name (cfg : Config) (prefixed_name : String) : Node :=
  match splitFirst ':' prefixed_name.data with
  | Option.none => Node.uri prefixed_name
  | Option.some (pre, name) =>
    let preS := String.mk pre
    let nameS := String.mk name
    match cfg.namespaces.find? (fun q => q.1 = preS) with
    | Option.some q => Node.uri (q.2 ++ nameS)
    | Option.none => Node.uri ("http://unknown.namespace/" ++ preS ++ "/" ++ nameS)

/-- A dataset row: the cells keyed by column header (pandas `Series` with a
unique index). -/
abbrev Row := List (String × CellValue)

def rowGet (row : Row) (col : String) : Option CellValue :=
  (row.find? (fun p => p.1 = col)).map (fun p => p.2)

/-- Python `row.get(col, default)` followed by `str(...)`. -/
def pyGetStr (row : Row) (col : String) (dflt : String) : String :=
  match rowGet row col with
  | Option.none => dflt
  | Option.some c => pyStrOf c

/-- Python `row.get(cols.get(key))`: an absent mapping key behaves like an
absent column (`row.get(None)` is `None`). -/
def rowGetOpt (row : Row) (ocol : Option String) : Option CellValue :=
  ocol.bind (rowGet row)

/-- Mutable state of one `generate_rdf_graph` run: the graph and the two
seen-registries (token → first stored label). -/
structure GenState where
  g : List Triple
  keyword_seen : List (String × String)
  organizations_registry : List (String × String)
deriving DecidableEq

def initState : GenState := ⟨[], [], []⟩

/-- Normalised article token of a row (source line 115). -/
def row_eid (cfg : Config) (row : Row) : String :=
  clean_for_uri (.str (pyStrip
    (pyGetStr row cfg.column_mappings.main_entity_identifier "")))

/-- Article-type triples (source lines 121-124): one `rdf:type` triple per
truthy configured token. -/
def articleTypesStage (cfg : Config) (article : Node) (g : List Triple) :
    List Triple :=
  (cfg.entity_types.scholarly_article.getD []).foldl
    (fun g ty =>
      if ty ≠ "" then addT g (article, rdfType, resolve_prefixed_name cfg ty)
      else g) g

/-- The fixed literal-mapping table of source lines 129-136. -/
def literal_mappings (cm : ColumnMappings) : List (Option String × String) :=
  [(cm.title, "schema:name"), (cm.abstract, "schema:abstract"),
   (cm.volume, "schema:volumeNumber"), (cm.issue, "schema:issueNumber"),
   (cm.page_start, "schema:pageStart"), (cm.page_end, "schema:pageEnd")]

/-- Literal-mapping triples (source lines 137-140). -/
def literalMappingsStage (cfg : Config) (article : Node) (row : Row)
    (g : List Triple) : List Triple :=
  (literal_mappings cfg.column_mappings).foldl
    (fun g pr =>
      match valid_literal (rowGetOpt row pr.1) with
      | Option.some v => addT g (article, resolve_prefixed_name cfg pr.2, Node.lit v)
      | Option.none => g) g

/-- Year triple (source lines 143-144): validation looks at the trimmed
value, but the emitted `gYear` literal carries the raw cell value. -/
def yearStage (cfg : Config) (article : Node) (row : Row) (g : List Triple) :
    List Triple :=
  match rowGet row cfg.column_mappings.year with
  | Option.some cell =>
    match valid_literal (Option.some cell) with
    | Option.some _ =>
      addT g (article, resolve_prefixed_name cfg "schema:datePublished",
        Node.litT (pyStrOf cell) xsdGYear)
    | Option.none => g
  | Option.none => g

/-- DOI triple (source lines 147-148): the URI is built from the raw cell
value by string interpolation. -/
def doiStage (cfg : Config) (article : Node) (row : Row) (g : List Triple) :
    List Triple :=
  match rowGet row cfg.column_mappings.doi with
  | Option.some cell =>
    match valid_literal (Option.some cell) with
    | Option.some _ =>
      addT g (article, resolve_prefixed_name cfg "schema:sameAs",
        Node.uri ("https://doi.org/" ++ pyStrOf cell))
    | Option.none => g
  | Option.none => g

/-- Link triple (source lines 149-150), the raw cell value as a URI. -/
def linkStage (cfg : Config) (article : Node) (row : Row) (g : List Triple) :
    List Triple :=
  match rowGet row cfg.column_mappings.link with
  | Option.some cell =>
    match valid_literal (Option.some cell) with
    | Option.some _ =>
      addT g (article, resolve_prefixed_name cfg "schema:url",
        Node.uri (pyStrOf cell))
    | Option.none => g
  | Option.none => g

/-- Drop trailing Python whitespace from a character list. -/
def dropTrailWs (l : List Char) : List Char :=
  (l.reverse.dropWhile isPySpace).reverse

/-- Validity of the prefix consumed by `(.+?)\s*` before the id group of
`re.match(r"(.+?)\s*\((\d+)\)", entry)`: `.` does not match a newline, while
the whitespace run absorbed by `\s*` may contain one. -/
def namePrefixOK (pre : List Char) : Bool :=
  match dropTrailWs pre with
  | [] => match pre with
    | [] => false
    | c :: _ => !(c = '\n')
  | core => core.all (fun c => !(c = '\n'))

/-- Attempt to read `\((\d+)\)` at the current position. -/
def matchIdTail (l : List Char) : Option String :=
  match l with
  | '(' :: t =>
    let ds := t.takeWhile isDigitChar
    if ds ≠ [] ∧ (t.drop ds.length).head? = Option.some ')' then
      Option.some (String.mk ds)
    else Option.none
  | _ => Option.none

/-- Leftmost match of `re.match(r"(.+?)\s*\((\d+)\)", _)` (source line 157):
scan for the first position with `\(\d+\)` whose (non-empty) prefix is
consumable by `(.+?)\s*`; the stored name is `group(1).strip()` and the
stored id `group(2).strip()` (already digits). -/
def findNameId (pre rest : List Char) : Option (String × String) :=
  match rest with
  | [] => Option.none
  | c :: t =>
    match (if namePrefixOK pre then matchIdTail rest else Option.none) with
    | Option.some ds => Option.some (String.mk (dropTrailWs pre), ds)
    | Option.none => findNameId (pre ++ [c]) t

def parseFullNameEntry (e : String) : Option (String × String) :=
  match e.data with
  | [] => Option.none
  | c :: t => findNameId [c] t

/-- Insert-or-overwrite on an association list modelling a Python dict
(first-position semantics for the key, later assignments overwrite). -/
def assocUpsert (l : List (String × String)) (k v : String) :
    List (String × String) :=
  if l.any (fun p => p.1 = k) then
    l.map (fun p => if p.1 = k then (k, v) else p)
  else l ++ [(k, v)]

def dictGet (l : List (String × String)) (k : String) : Option String :=
  (l.find? (fun p => p.1 = k)).map (fun p => p.2)

/-- The `id_to_fullname` dictionary of source lines 153-159. -/
def parse_full_names (s : String) : List (String × String) :=
  if s = "" then []
  else
    (pySplit s ';').foldl
      (fun acc entry =>
        match parseFullNameEntry (pyStrip entry) with
        | Option.some (name, id) => assocUpsert acc id name
        | Option.none => acc) []

/-- Body of the author loop for one `(author_id, abbreviation)` pair
(source lines 163-180). -/
def authorPairStep (cfg : Config) (fullnames : List (String × String))
    (article : Node) (g : List Triple) (pr : String × String) : List Triple :=
  let aid := pyStrip pr.1
  let abb := pyStrip pr.2
  if aid = "" then g
  else
    let author := Node.uri (cfg.base_uri ++ clean_for_uri (.str aid))
    let g := addT g (author, rdfType,
      resolve_prefixed_name cfg cfg.entity_types.author)
    let g := addT g (author, resolve_prefixed_name cfg "schema:identifier",
      Node.lit aid)
    let g := if abb ≠ "" then
        addT g (author, resolve_prefixed_name cfg "rdfs:label", Node.lit abb)
      else g
    let g := match dictGet fullnames aid with
      | Option.some fn =>
        if fn ≠ "" then
          let g := addT g (author, resolve_prefixed_name cfg "schema:name",
            Node.lit fn)
          if ',' ∈ fn.data then
            match splitFirst ',' fn.data with
            | Option.some (a, b) =>
              addT
                (addT g (author, resolve_prefixed_name cfg "schema:familyName",
                  Node.lit (pyStrip (String.mk a))))
                (author, resolve_prefixed_name cfg "schema:givenName",
                  Node.lit (pyStrip (String.mk b)))
            | Option.none => g
          else g
        else g
      | Option.none => g
    addT g (article, resolve_prefixed_name cfg "schema:author", author)

/-- Fold of the author loop over the `zip` of the two split lists. -/
def authorsZipFold (cfg : Config) (fullnames : List (String × String))
    (article : Node) (g : List Triple) (pairs : List (String × String)) :
    List Triple :=
  pairs.foldl (authorPairStep cfg fullnames article) g

/-- Author stage (source lines 152-180). -/
def authorsStage (cfg : Config) (article : Node) (row : Row)
    (g : List Triple) : List Triple :=
  let fullnames := parse_full_names
    (pyStrip (pyGetStr row cfg.column_mappings.author_full_names ""))
  let ids := pySplit (pyGetStr row cfg.column_mappings.author_ids "") ';'
  let abbrevs := pySplit
    (pyGetStr row cfg.column_mappings.author_abbreviations "") ';'
  authorsZipFold cfg fullnames article g (ids.zip abbrevs)

/-- Source/venue stage (source lines 183-193).  The error case is the
`IndexError` raised inside `detect_publication_type` when the configured
`scholarly_article` list is present but empty. -/
def sourceStage (cfg : Config) (article : Node) (row : Row)
    (g : List Triple) : Except String (List Triple) :=
  match valid_literal (rowGet row cfg.column_mappings.source_title) with
  | Option.none => .ok g
  | Option.some st =>
    let puri := Node.uri (cfg.base_uri ++ clean_for_uri (.str st))
    match detect_publication_type (Option.some st) cfg with
    | Option.none => .error "IndexError: list index out of range"
    | Option.some (schema_type_str, custom_type_str) =>
      let g := if schema_type_str ≠ "" then
          addT g (puri, rdfType, resolve_prefixed_name cfg schema_type_str)
        else g
      let g := match custom_type_str with
        | Option.some c =>
          if c ≠ "" then addT g (puri, rdfType, resolve_prefixed_name cfg c)
          else g
        | Option.none => g
      let g := addT g (puri, resolve_prefixed_name cfg "schema:name", Node.lit st)
      .ok (addT g (article, resolve_prefixed_name cfg "schema:isPartOf", puri))

/-- Body of the funding loop for one semicolon-separated entry
(source lines 198-208). -/
def fundingEntryStep (cfg : Config) (article : Node)
    (acc : List Triple × List (String × String)) (org_raw : String) :
    List Triple × List (String × String) :=
  match normalize_organization_name (.str (pyStrip org_raw)) with
  | Option.none => acc
  | Option.some n =>
    if n = "" then acc
    else
      let tok := clean_for_uri (.str n)
      let ouri := Node.uri (cfg.base_uri ++ tok)
      let (g, reg) := acc
      let (g, reg) :=
        if reg.any (fun p => p.1 = tok) then (g, reg)
        else
          (addT
            (addT g (ouri, rdfType,
              resolve_prefixed_name cfg cfg.entity_types.funding_organization))
            (ouri, resolve_prefixed_name cfg "schema:name", Node.lit n),
           reg ++ [(tok, n)])
      (addT g (article, resolve_prefixed_name cfg "schema:funding", ouri), reg)

/-- Funding stage (source lines 196-208). -/
def fundingStage (cfg : Config) (article : Node) (row : Row)
    (acc : List Triple × List (String × String)) :
    List Triple × List (String × String) :=
  match valid_literal (rowGet row cfg.column_mappings.funding_details) with
  | Option.none => acc
  | Option.some fd => (pySplit fd ';').foldl (fundingEntryStep cfg article) acc

/-- Body of the keyword loop for one keyword string (source lines 214-224). -/
def keywordEntryStep (cfg : Config) (article : Node)
    (acc : List Triple × List (String × String)) (kw0 : String) :
    List Triple × List (String × String) :=
  let kw := pyStrip kw0
  if kw = "" then acc
  else
    let norm := clean_for_uri (.str kw)
    let kuri := Node.uri (cfg.base_uri ++ norm)
    let (g, seen) := acc
    let (g, seen) :=
      if seen.any (fun p => p.1 = norm) then (g, seen)
      else
        (addT
          (addT g (kuri, rdfType,
            resolve_prefixed_name cfg cfg.entity_types.keyword))
          (kuri, resolve_prefixed_name cfg "skos:prefLabel", Node.litL kw "en"),
         seen ++ [(norm, kw)])
    (addT g (article, resolve_prefixed_name cfg "dct:subject", kuri), seen)

/-- Keyword stage (source lines 211-224): `row.get(col, "")` then a
`pd.notna` guard; a NaN cell is skipped, an absent column behaves like the
empty string. -/
def keywordsStage (cfg : Config) (article : Node) (row : Row)
    (acc : List Triple × List (String × String)) :
    List Triple × List (String × String) :=
  cfg.keyword_columns.foldl
    (fun acc col =>
      match rowGet row col with
      | Option.some .na => acc
      | Option.some (.str s) =>
        (pySplit s ';').foldl (keywordEntryStep cfg article) acc
      | Option.none => (pySplit "" ';').foldl (keywordEntryStep cfg article) acc)
    acc

/-- Citation-observation stage (source lines 227-234).  The error case is the
`ValueError` of `int(cited_by)`; it is raised while the row is being
processed and aborts the run. -/
def citationStage (cfg : Config) (idate : String) (article : Node)
    (eid : String) (row : Row) (g : List Triple) :
    Except String (List Triple) :=
  match valid_literal (rowGet row cfg.column_mappings.cited_by) with
  | Option.none => .ok g
  | Option.some cb =>
    let obs := Node.uri (cfg.base_uri ++
      clean_for_uri (.str (eid ++ "-citations-" ++ idate)))
    let g := addT g (obs, rdfType,
      resolve_prefixed_name cfg cfg.entity_types.citation_observation)
    match pyInt cb with
    | Option.none => .error "ValueError: invalid literal for int"
    | Option.some n =>
      let g := addT g (obs, resolve_prefixed_name cfg "schema:value",
        Node.litT (toString n) xsdInteger)
      let g := addT g (obs, resolve_prefixed_name cfg "schema:observationDate",
        Node.litT idate xsdDate)
      .ok (addT g (article, Node.uri (cfg.base_uri ++ "citationCount"), obs))

/-- Processing of one dataset row (the body of the `for _, row in
df.iterrows()` loop, source lines 114-234). -/
def processRow (cfg : Config) (idate : String) (st : GenState) (row : Row) :
    Except String GenState :=
  let eid := row_eid cfg row
  if eid = "unknown" then .ok st
  else
    let article := Node.uri (cfg.base_uri ++ eid)
    let g := articleTypesStage cfg article st.g
    let g := addT g (article, resolve_prefixed_name cfg "schema:identifier",
      Node.lit eid)
    let g := literalMappingsStage cfg article row g
    let g := yearStage cfg article row g
    let g := doiStage cfg article row g
    let g := linkStage cfg article row g
    let g := authorsStage cfg article row g
    match sourceStage cfg article row g with
    | .error e => .error e
    | .ok g =>
      let (g, orgs) := fundingStage cfg article row (g, st.organizations_registry)
      let (g, kws) := keywordsStage cfg article row (g, st.keyword_seen)
      match citationStage cfg idate article eid row g with
      | .error e => .error e
      | .ok g => .ok ⟨g, kws, orgs⟩

/-- Inspection date resolved once per run (source line 110): the literal
configuration value `"today"` means the current date, supplied here as the
explicit parameter `today`. -/
def resolvedDate (cfg : Config) (today : String) : String :=
  if cfg.inspection_date = "today" then today else cfg.inspection_date

/-- Model of `generate_rdf_graph` (source lines 93-236).  Serialisation is
external; the run returns the accumulated triple set and `len(g)`, or the
propagated exception. -/
def generate_rdf_graph (df : List Row) (cfg : Config) (today : String) :
    Except String (List Triple × Nat) :=
  match df.foldlM (processRow cfg (resolvedDate cfg today)) initState with
  | .error e => .error e
  | .ok st => .ok (st.g, st.g.length)

/-- Graph carried by a row-processing result (empty when the run aborted). -/
def graphOf : Except String GenState → List Triple
  | .error _ => []
  | .ok st => st.g

/-- Number of triples of a finished run satisfying a predicate (zero when the
run aborted). -/
def countTriples (p : Triple → Bool) : Except String (List Triple × Nat) → Nat
  | .error _ => 0
  | .ok (g, _) => (g.filter p).length

/-- Concrete test configuration (shape of the repository's `config.yaml`,
with short strings: prefix `schema` expands to `S`, `rdfs` to `R`, `skos` to
`K`, `dct` to `D`, and the base URI is `b/`). -/
def testConfig : Config :=
  { namespaces := [("schema", "S"), ("rdfs", "R"), ("skos", "K"), ("dct", "D")]
    base_uri := "b/"
    column_mappings :=
      { main_entity_identifier := "EID", year := "Y", doi := "DOI", link := "L"
        author_full_names := "AFN", author_ids := "AID"
        author_abbreviations := "AAB", source_title := "ST"
        funding_details := "FD", cited_by := "CB"
        title := Option.none, abstract := Option.none, volume := Option.none
        issue := Option.none, page_start := Option.none
        page_end := Option.none }
    entity_types :=
      { scholarly_article := Option.some ["schema:A"]
        author := "schema:P", funding_organization := "schema:O"
        keyword := "schema:Kw", citation_observation := "schema:CO"
        publication_types_conference := Option.some "schema:C"
        publication_types_journal := Option.some "schema:J"
        publication_types_book_series := Option.none }
    keyword_columns := ["KW1"]
    inspection_date := "2024-01-01"
    output_format := "ttl" }

/-- Test configuration whose `scholarly_article` entry is present but an
empty list. -/
def testConfigEmptyTypes : Config :=
  { testConfig with
    entity_types := { testConfig.entity_types with
      scholarly_article := Option.some [] } }

/-- Row whose main-identifier cell is blank. -/
def blankRow : Row := [("EID", .str "  "), ("FD", .str "World Bank")]

/-- Row with a well-formed identifier and funding entry. -/
def okRow : Row := [("EID", .str "A9"), ("FD", .str "Ministry")]

/-- Row whose validated citation-count cell is not parseable as an integer. -/
def badCitedRow : Row := [("EID", .str "A1"), ("CB", .str "12x")]

/-- Two rows whose funding entries normalise to the same organisation
token `world_bank` from different raw spellings. -/
def twoFunderRows : List Row :=
  [[("EID", .str "A1"), ("FD", .str "World Bank (WB)")],
   [("EID", .str "A2"), ("FD", .str "World Bank")]]

/-- One row carrying the same funding entry (same token) twice. -/
def oneRowTwoFunders : List Row :=
  [[("EID", .str "A1"), ("FD", .str "World Bank (WB);World Bank")]]

/-- Row whose main identifier consists solely of stripped punctuation. -/
def dotsRow : Row := [("EID", .str "...")]

/-- Row with whitespace-carrying DOI and year cells. -/
def rawValueRow : Row :=
  [("EID", .str "W1"), ("DOI", .str " 10.1/x "), ("Y", .str " 2022 ")]

/-! Character-level facts about the normalisation pipeline. -/

theorem mem_of_contains {c : Char} {l : List Char} (h : l.contains c = true) :
    c ∈ l := by simpa using h

theorem map_eq_self_of {l : List Char} {f : Char → Char}
    (h : ∀ c ∈ l, f c = c) : l.map f = l := by
  induction l with
  | nil => rfl
  | cons c t ih =>
    simp only [List.map_cons]
    rw [h c (List.mem_cons_self c t), ih (fun x hx => h x (List.mem_cons_of_mem c hx))]

theorem pyLowerChar_allowed_good : ∀ c ∈ allowed_chars, goodChar (pyLowerChar c) = true := by
  decide

theorem translateChar_good : ∀ c ∈ good_chars, translateChar c = c := by decide

theorem punct_good : ∀ c ∈ good_chars, punct_chars.contains c = false := by decide

theorem ws_good : ∀ c ∈ good_chars, isPySpace c = false := by decide

theorem allowed_good : ∀ c ∈ good_chars, allowedChar c = true := by decide

theorem pyLowerChar_good : ∀ c ∈ good_chars, pyLowerChar c = c := by decide

theorem pyLowerChar_underscore {c : Char} (h : pyLowerChar c = '_') : c = '_' := by
  unfold pyLowerChar at h
  cases hf : lower_pairs.find? (fun p => p.1 = c) with
  | none => simpa [hf] using h
  | some p =>
    rw [hf] at h
    simp only [Option.map_some', Option.getD_some] at h
    have hmem := List.mem_of_find?_eq_some hf
    have : ∀ q ∈ lower_pairs, q.2 = '_' → False := by decide
    exact absurd h (fun hh => this p hmem hh)

/-- Head of a run-collapsed non-empty list. -/
theorem collapseRuns_head (p : Char → Bool) (r b : Char) (t : List Char) :
    (collapseRuns p r (b :: t)).head? = Option.some (if p b then r else b) := by
  induction t generalizing b with
  | nil => unfold collapseRuns; split <;> simp_all
  | cons c t' ih =>
    unfold collapseRuns
    by_cases hb : p b = true <;> by_cases hc : p c = true <;>
      simp [hb, hc, ih c]

theorem mem_collapseRuns {p : Char → Bool} {r : Char} :
    ∀ {l : List Char} {c : Char}, c ∈ collapseRuns p r l → c = r ∨ c ∈ l := by
  intro l
  induction l with
  | nil =>
    intro c h
    unfold collapseRuns at h
    exact absurd h (List.not_mem_nil c)
  | cons a t ih =>
    intro c h
    cases t with
    | nil =>
      unfold collapseRuns at h
      split at h <;> simp_all
    | cons b t' =>
      unfold collapseRuns at h
      split at h
      · rcases ih h with h' | h'
        · exact Or.inl h'
        · exact Or.inr (List.mem_cons_of_mem a h')
      · rcases List.mem_cons.mp h with h' | h'
        · subst h'
          by_cases ha : p a = true
          · simp [ha]
          · simp [ha]
        · rcases ih h' with h'' | h''
          · exact Or.inl h''
          · exact Or.inr (List.mem_cons_of_mem a h'')

/-- Collapsing underscore runs leaves no adjacent pair of underscores. -/
theorem noDouble_collapseRuns :
    ∀ l : List Char, noDoubleChar '_' (collapseRuns isUnderscore '_' l) = true := by
  intro l
  induction l with
  | nil => rfl
  | cons a t ih =>
    cases t with
    | nil =>
      unfold collapseRuns
      split <;> rfl
    | cons b t' =>
      unfold collapseRuns
      by_cases hab : (isUnderscore a && isUnderscore b) = true
      · rw [if_pos hab]; exact ih
      · rw [if_neg hab]
        have hhead := collapseRuns_head isUnderscore '_' b t'
        cases hc : collapseRuns isUnderscore '_' (b :: t') with
        | nil => simp [hc] at hhead
        | cons y ys =>
          rw [hc] at ih hhead
          simp only [List.head?_cons, Option.some.injEq] at hhead
          cases hpa : isUnderscore a with
          | false =>
            have ha' : ¬ a = '_' := by simpa [isUnderscore] using hpa
            simp [noDoubleChar, hpa, ha', ih]
          | true =>
            have hb : isUnderscore b = false := by
              cases hb' : isUnderscore b
              · rfl
              · exact absurd (by rw [hpa, hb']; rfl) hab
            have hy : ¬ y = '_' := by
              rw [hhead, hb]
              simpa [isUnderscore] using hb
            simp [noDoubleChar, hpa, hy, ih]

/-- A list without adjacent underscores is a fixed point of underscore-run
collapsing. -/
theorem collapseRuns_underscore_fixed :
    ∀ l : List Char, noDoubleChar '_' l = true →
      collapseRuns isUnderscore '_' l = l := by
  intro l
  induction l with
  | nil => intro _; rfl
  | cons a t ih =>
    intro h
    cases t with
    | nil =>
      unfold collapseRuns
      split
      · next hpa =>
        unfold isUnderscore at hpa
        simp only [decide_eq_true_eq] at hpa
        rw [hpa]
      · rfl
    | cons b t' =>
      unfold noDoubleChar at h
      rw [Bool.and_eq_true] at h
      obtain ⟨h1, h2⟩ := h
      unfold collapseRuns
      have hab : (isUnderscore a && isUnderscore b) = false := by
        simp only [Bool.not_eq_true'] at h1
        unfold isUnderscore
        rw [Bool.and_eq_false_iff] at h1 ⊢
        rcases h1 with h1 | h1 <;> [left; right] <;> simpa using h1
      rw [hab]
      simp only [Bool.false_eq_true, if_false]
      rw [ih h2]
      congr 1
      cases hpa : isUnderscore a
      · rfl
      · unfold isUnderscore at hpa
        simp only [decide_eq_true_eq] at hpa
        simp [hpa]

/-- A list with no character satisfying `p` is a fixed point of run
collapsing. -/
theorem collapseRuns_fixed_of_none {p : Char → Bool} {r : Char} :
    ∀ l : List Char, (∀ c ∈ l, p c = false) →
      collapseRuns p r l = l := by
  intro l
  induction l with
  | nil => intro _; rfl
  | cons a t ih =>
    intro h
    have ha := h a (List.mem_cons_self a t)
    cases t with
    | nil =>
      unfold collapseRuns
      rw [ha]
      rfl
    | cons b t' =>
      have hb := h b (List.mem_cons_of_mem a (List.mem_cons_self b t'))
      unfold collapseRuns
      rw [ha, hb]
      simp only [Bool.and_self, Bool.false_eq_true, if_false]
      rw [ih (fun c hc => h c (List.mem_cons_of_mem a hc))]

/-- Mapping the ASCII lower-case table preserves underscore adjacency
structure (the table never produces an underscore). -/
theorem noDouble_map_pyLowerChar :
    ∀ l : List Char, noDoubleChar '_' l = true →
      noDoubleChar '_' (l.map pyLowerChar) = true := by
  intro l
  induction l with
  | nil => intro _; rfl
  | cons a t ih =>
    intro h
    cases t with
    | nil => rfl
    | cons b t' =>
      unfold noDoubleChar at h
      rw [Bool.and_eq_true] at h
      obtain ⟨h1, h2⟩ := h
      simp only [List.map_cons]
      unfold noDoubleChar
      rw [Bool.and_eq_true]
      refine ⟨?_, ih h2⟩
      simp only [Bool.not_eq_true'] at h1 ⊢
      rw [Bool.and_eq_false_iff] at h1 ⊢
      rcases h1 with h1 | h1
      · left
        simp only [decide_eq_false_iff_not] at h1 ⊢
        exact fun hh => h1 (pyLowerChar_underscore hh)
      · right
        simp only [decide_eq_false_iff_not] at h1 ⊢
        exact fun hh => h1 (pyLowerChar_underscore hh)

/-- Every character of a `cleanText` output lies in `[a-z0-9_-]`. -/
theorem cleanText_chars_good (s : String) :
    ∀ c ∈ (cleanText s).data, goodChar c = true := by
  intro c hc
  unfold cleanText at hc
  change c ∈ List.map pyLowerChar _ at hc
  rcases List.mem_map.mp hc with ⟨c0, hc0, rfl⟩
  rcases mem_collapseRuns hc0 with h0 | h0
  · subst h0
    decide
  · have : allowedChar c0 = true := List.of_mem_filter h0
    exact pyLowerChar_allowed_good c0 (mem_of_contains this)

/-- A `cleanText` output never has two adjacent underscores. -/
theorem cleanText_noDouble (s : String) :
    noDoubleChar '_' (cleanText s).data = true := by
  unfold cleanText
  exact noDouble_map_pyLowerChar _ (noDouble_collapseRuns _)

/-- Strings over `[a-z0-9_-]` without adjacent underscores are fixed points
of the cleaning pipeline. -/
theorem cleanText_fixed (t : String)
    (hg : ∀ c ∈ t.data, goodChar c = true)
    (hd : noDoubleChar '_' t.data = true) : cleanText t = t := by
  unfold cleanText
  have e1 : t.data.map translateChar = t.data :=
    map_eq_self_of (fun c hc => translateChar_good c (mem_of_contains (hg c hc)))
  rw [e1]
  have e2 : List.filter (fun c => !(punct_chars.contains c)) t.data = t.data := by
    rw [List.filter_eq_self]
    intro c hc
    rw [punct_good c (mem_of_contains (hg c hc))]
    rfl
  rw [e2]
  have e3 : collapseRuns isPySpace '_' t.data = t.data :=
    collapseRuns_fixed_of_none t.data
      (fun c hc => ws_good c (mem_of_contains (hg c hc)))
  rw [e3]
  have e4 : List.filter allowedChar t.data = t.data := by
    rw [List.filter_eq_self]
    exact fun c hc => allowed_good c (mem_of_contains (hg c hc))
  rw [e4]
  rw [collapseRuns_underscore_fixed t.data hd]
  rw [map_eq_self_of (fun c hc => pyLowerChar_good c (mem_of_contains (hg c hc)))]

/-- Claim C1, counterexample: on the input `"..."` (every character is in the
stripped punctuation class) `clean_for_uri` returns the empty string, which
is neither the sentinel `"unknown"` nor a non-empty string over
`[a-z0-9_-]`. -/
theorem clean_for_uri_dots_counterexample :
    clean_for_uri (.str "...") = "" ∧
      ¬ (clean_for_uri (.str "...") = "unknown" ∨
        ((clean_for_uri (.str "...")).data ≠ [] ∧
          ∀ c ∈ (clean_for_uri (.str "...")).data, goodChar c = true)) := by
  decide

/-- Claim C1, amended: for every input (string, `None`, or NaN),
`clean_for_uri` returns either the sentinel `"unknown"` or a possibly empty
string containing only characters of `[a-z0-9_-]` (the empty string does
occur, see the counterexample). -/
theorem clean_for_uri_output_charset (v : PyVal) :
    clean_for_uri v = "unknown" ∨
      ∀ c ∈ (clean_for_uri v).data, goodChar c = true := by
  cases v with
  | none => exact Or.inl rfl
  | nan => exact Or.inl rfl
  | str s =>
    by_cases hs : s = ""
    · subst hs
      exact Or.inl rfl
    · refine Or.inr ?_
      simpa [clean_for_uri, hs] using cleanText_chars_good s

/-- Claim C2, counterexample: `clean_for_uri` is not idempotent at `"..."`,
whose image is the empty string, which maps on to `"unknown"`. -/
theorem clean_for_uri_dots_not_idempotent :
    clean_for_uri (.str (clean_for_uri (.str "..."))) ≠
      clean_for_uri (.str "...") := by
  decide

/-- Claim C2, amended: `clean_for_uri` is idempotent at every input whose
output is non-empty (equivalently at every input except those normalising to
the empty string, where a second pass yields `"unknown"`). -/
theorem clean_for_uri_idempotent_on_nonempty (v : PyVal)
    (h : clean_for_uri v ≠ "") :
    clean_for_uri (.str (clean_for_uri v)) = clean_for_uri v := by
  cases v with
  | none => decide
  | nan => decide
  | str s =>
    by_cases hs : s = ""
    · subst hs
      decide
    · have hv : clean_for_uri (.str s) = cleanText s := by
        simp [clean_for_uri, hs]
      rw [hv] at h ⊢
      have hne : ¬ cleanText s = "" := h
      simp only [clean_for_uri, if_neg hne]
      exact cleanText_fixed (cleanText s) (cleanText_chars_good s)
        (cleanText_noDouble s)

/-- Witness for the amended claim C2 at a concrete input with accents,
punctuation and whitespace. -/
theorem clean_for_uri_idempotent_witness :
    clean_for_uri (.str (clean_for_uri (.str "Hola  Ñandú!"))) =
      clean_for_uri (.str "Hola  Ñandú!") :=
  clean_for_uri_idempotent_on_nonempty (.str "Hola  Ñandú!") (by decide)

/-! Monotonicity of the triple-emitting stages: `rdflib`'s `Graph.add` never
removes a triple, so membership is preserved through every stage. -/

theorem mem_addT {t : Triple} {g : List Triple} (t' : Triple) (h : t ∈ g) :
    t ∈ addT g t' := by
  unfold addT
  split
  · exact h
  · exact List.mem_append_left _ h

theorem mem_addT_self (g : List Triple) (t : Triple) : t ∈ addT g t := by
  unfold addT
  split
  · assumption
  · exact List.mem_append_right _ (List.mem_singleton.mpr rfl)

theorem mem_foldl_of_step {α : Type} {f : List Triple → α → List Triple}
    (hf : ∀ g a (t : Triple), t ∈ g → t ∈ f g a) :
    ∀ (l : List α) {g : List Triple} {t : Triple}, t ∈ g → t ∈ l.foldl f g := by
  intro l
  induction l with
  | nil => intro g t h; exact h
  | cons a l' ih => intro g t h; exact ih (hf g a t h)

theorem mem_foldl_pair_of_step {α : Type}
    {f : List Triple × List (String × String) → α →
      List Triple × List (String × String)}
    (hf : ∀ acc a (t : Triple), t ∈ acc.1 → t ∈ (f acc a).1) :
    ∀ (l : List α) {acc : List Triple × List (String × String)} {t : Triple},
      t ∈ acc.1 → t ∈ (l.foldl f acc).1 := by
  intro l
  induction l with
  | nil => intro acc t h; exact h
  | cons a l' ih => intro acc t h; exact ih (hf acc a t h)

theorem mem_articleTypesStage (cfg : Config) (article : Node)
    {g : List Triple} {t : Triple} (h : t ∈ g) :
    t ∈ articleTypesStage cfg article g := by
  unfold articleTypesStage
  refine mem_foldl_of_step (fun g a t h => ?_) _ h
  dsimp only
  split
  · exact mem_addT _ h
  · exact h

theorem mem_literalMappingsStage (cfg : Config) (article : Node) (row : Row)
    {g : List Triple} {t : Triple} (h : t ∈ g) :
    t ∈ literalMappingsStage cfg article row g := by
  unfold literalMappingsStage
  refine mem_foldl_of_step (fun g a t h => ?_) _ h
  dsimp only
  split
  · exact mem_addT _ h
  · exact h

theorem mem_yearStage (cfg : Config) (article : Node) (row : Row)
    {g : List Triple} {t : Triple} (h : t ∈ g) :
    t ∈ yearStage cfg article row g := by
  unfold yearStage
  split
  · split
    · exact mem_addT _ h
    · exact h
  · exact h

theorem mem_doiStage (cfg : Config) (article : Node) (row : Row)
    {g : List Triple} {t : Triple} (h : t ∈ g) :
    t ∈ doiStage cfg article row g := by
  unfold doiStage
  split
  · split
    · exact mem_addT _ h
    · exact h
  · exact h

theorem mem_linkStage (cfg : Config) (article : Node) (row : Row)
    {g : List Triple} {t : Triple} (h : t ∈ g) :
    t ∈ linkStage cfg article row g := by
  unfold linkStage
  split
  · split
    · exact mem_addT _ h
    · exact h
  · exact h

theorem mem_authorPairStep (cfg : Config) (fullnames : List (String × String))
    (article : Node) (g : List Triple) (pr : String × String) {t : Triple}
    (h : t ∈ g) : t ∈ authorPairStep cfg fullnames article g pr := by
  simp only [authorPairStep]
  repeat
    first
    | exact h
    | apply mem_addT
    | split

theorem mem_authorsStage (cfg : Config) (article : Node) (row : Row)
    {g : List Triple} {t : Triple} (h : t ∈ g) :
    t ∈ authorsStage cfg article row g := by
  unfold authorsStage authorsZipFold
  exact mem_foldl_of_step
    (fun g a t h => mem_authorPairStep cfg _ article g a h) _ h

theorem mem_sourceStage (cfg : Config) (article : Node) (row : Row)
    {g g' : List Triple} (hok : sourceStage cfg article row g = .ok g')
    {t : Triple} (h : t ∈ g) : t ∈ g' := by
  unfold sourceStage at hok
  split at hok
  · cases hok
    exact h
  · split at hok
    · cases hok
    · cases hok
      repeat
        first
        | exact h
        | apply mem_addT
        | split

theorem mem_fundingEntryStep (cfg : Config) (article : Node)
    (acc : List Triple × List (String × String)) (e : String) {t : Triple}
    (h : t ∈ acc.1) : t ∈ (fundingEntryStep cfg article acc e).1 := by
  obtain ⟨g, reg⟩ := acc
  simp only [fundingEntryStep]
  repeat
    first
    | exact h
    | apply mem_addT
    | split

theorem mem_fundingStage (cfg : Config) (article : Node) (row : Row)
    {acc : List Triple × List (String × String)} {t : Triple}
    (h : t ∈ acc.1) : t ∈ (fundingStage cfg article row acc).1 := by
  unfold fundingStage
  split
  · exact h
  · exact mem_foldl_pair_of_step
      (fun acc a t h => mem_fundingEntryStep cfg article acc a h) _ h

theorem mem_keywordEntryStep (cfg : Config) (article : Node)
    (acc : List Triple × List (String × String)) (kw : String) {t : Triple}
    (h : t ∈ acc.1) : t ∈ (keywordEntryStep cfg article acc kw).1 := by
  obtain ⟨g, seen⟩ := acc
  simp only [keywordEntryStep]
  repeat
    first
    | exact h
    | apply mem_addT
    | split

theorem mem_keywordsStage (cfg : Config) (article : Node) (row : Row)
    {acc : List Triple × List (String × String)} {t : Triple}
    (h : t ∈ acc.1) : t ∈ (keywordsStage cfg article row acc).1 := by
  unfold keywordsStage
  refine mem_foldl_pair_of_step (fun acc a t h => ?_) _ h
  dsimp only
  split
  · exact h
  · exact mem_foldl_pair_of_step
      (fun acc a t h => mem_keywordEntryStep cfg article acc a h) _ h
  · exact mem_foldl_pair_of_step
      (fun acc a t h => mem_keywordEntryStep cfg article acc a h) _ h

theorem mem_citationStage (cfg : Config) (idate : String) (article : Node)
    (eid : String) (row : Row) {g g' : List Triple}
    (hok : citationStage cfg idate article eid row g = .ok g') {t : Triple}
    (h : t ∈ g) : t ∈ g' := by
  unfold citationStage at hok
  split at hok
  · cases hok
    exact h
  · split at hok
    · cases hok
    · cases hok
      exact mem_addT _ (mem_addT _ (mem_addT _ (mem_addT _ h)))

/-- A row whose normalised identifier is the sentinel is skipped: the state
(graph and registries) is returned untouched. -/
theorem processRow_skip (cfg : Config) (idate : String) (st : GenState)
    (row : Row) (h : row_eid cfg row = "unknown") :
    processRow cfg idate st row = .ok st := by
  simp only [processRow, h, if_pos]

/-- Membership in the graph after the author stage of a non-skipped row is
preserved into the final state of the row. -/
theorem processRow_pushes_mem (cfg : Config) (idate : String) (st : GenState)
    (row : Row) (st' : GenState)
    (heid : ¬ row_eid cfg row = "unknown")
    (hok : processRow cfg idate st row = .ok st') {t : Triple}
    (h : t ∈ authorsStage cfg (Node.uri (cfg.base_uri ++ row_eid cfg row)) row
      (linkStage cfg (Node.uri (cfg.base_uri ++ row_eid cfg row)) row
        (doiStage cfg (Node.uri (cfg.base_uri ++ row_eid cfg row)) row
          (yearStage cfg (Node.uri (cfg.base_uri ++ row_eid cfg row)) row
            (literalMappingsStage cfg
              (Node.uri (cfg.base_uri ++ row_eid cfg row)) row
              (addT
                (articleTypesStage cfg
                  (Node.uri (cfg.base_uri ++ row_eid cfg row)) st.g)
                (Node.uri (cfg.base_uri ++ row_eid cfg row),
                  resolve_prefixed_name cfg "schema:identifier",
                  Node.lit (row_eid cfg row)))))))) :
    t ∈ st'.g := by
  simp only [processRow, if_neg heid] at hok
  split at hok
  · cases hok
  · next g8 hs =>
    split at hok
    · cases hok
    · next g11 hc =>
      cases hok
      exact mem_citationStage cfg idate _ _ row hc
        (mem_keywordsStage cfg _ row
          (mem_fundingStage cfg _ row (mem_sourceStage cfg _ row hs h)))

/-- A non-skipped row that finishes lands its identifier triple in the final
graph: processing a row with a non-sentinel token always emits (or finds
already present) the `schema:identifier` triple of the article. -/
theorem processRow_identifier_mem (cfg : Config) (idate : String)
    (st : GenState) (row : Row) (st' : GenState)
    (heid : ¬ row_eid cfg row = "unknown")
    (hok : processRow cfg idate st row = .ok st') :
    (Node.uri (cfg.base_uri ++ row_eid cfg row),
      resolve_prefixed_name cfg "schema:identifier",
      Node.lit (row_eid cfg row)) ∈ st'.g := by
  refine processRow_pushes_mem cfg idate st row st' heid hok ?_
  exact mem_authorsStage cfg _ row (mem_linkStage cfg _ row
    (mem_doiStage cfg _ row (mem_yearStage cfg _ row
      (mem_literalMappingsStage cfg _ row (mem_addT_self _ _)))))

/-- A validated citation cell whose content `int()` cannot parse makes the
row processing raise (`ValueError`), whatever the rest of the row holds. -/
theorem processRow_bad_citation (cfg : Config) (idate : String)
    (st : GenState) (row : Row) (s : String)
    (heid : ¬ row_eid cfg row = "unknown")
    (hcb : valid_literal (rowGet row cfg.column_mappings.cited_by) =
      Option.some s)
    (hint : pyInt s = Option.none) :
    ∃ e, processRow cfg idate st row = .error e := by
  simp only [processRow, if_neg heid]
  have hcit : ∀ g : List Triple,
      citationStage cfg idate (Node.uri (cfg.base_uri ++ row_eid cfg row))
        (row_eid cfg row) row g = .error "ValueError: invalid literal for int" := by
    intro g
    simp only [citationStage, hcb, hint]
  split
  · next e hs => exact ⟨e, rfl⟩
  · next g8 hs =>
    refine ⟨"ValueError: invalid literal for int", ?_⟩
    rw [hcit]

/-- Appending rows to a run folds state left to right (`Except` bind). -/
theorem foldlM_rows_append (f : GenState → Row → Except String GenState)
    (l1 : List Row) :
    ∀ (l2 : List Row) (s : GenState),
      (l1 ++ l2).foldlM f s =
        (l1.foldlM f s).bind fun s' => l2.foldlM f s' := by
  induction l1 with
  | nil => intro l2 s; rfl
  | cons r t ih =>
    intro l2 s
    show (f s r).bind _ = ((f s r).bind _).bind _
    cases f s r with
    | error e => rfl
    | ok s1 => exact ih l2 s1

/-- Claim C3: a row whose main-identifier column is absent or blank (token
`"unknown"`) contributes no triples and no state change, removing it from
the dataset leaves the run's result (triples and count) unchanged, and this
is the only skip condition: any row with a different token that finishes
processing has its article identifier triple in the resulting graph. -/
theorem blank_identifier_row_skipped (cfg : Config) (today : String)
    (row : Row) :
    (row_eid cfg row = "unknown" →
      (∀ idate st, processRow cfg idate st row = .ok st) ∧
      ∀ pre post, generate_rdf_graph (pre ++ row :: post) cfg today =
        generate_rdf_graph (pre ++ post) cfg today) ∧
    (¬ row_eid cfg row = "unknown" →
      ∀ idate st st', processRow cfg idate st row = .ok st' →
        (Node.uri (cfg.base_uri ++ row_eid cfg row),
          resolve_prefixed_name cfg "schema:identifier",
          Node.lit (row_eid cfg row)) ∈ st'.g) := by
  constructor
  · intro h
    refine ⟨fun idate st => processRow_skip cfg idate st row h, ?_⟩
    intro pre post
    unfold generate_rdf_graph
    rw [foldlM_rows_append, foldlM_rows_append]
    cases hpre : List.foldlM (processRow cfg (resolvedDate cfg today))
        initState pre with
    | error e => rfl
    | ok st =>
      have hrow : ((Except.ok st : Except String GenState).bind fun s' =>
          List.foldlM (processRow cfg (resolvedDate cfg today)) s'
            (row :: post)) =
          (Except.ok st : Except String GenState).bind fun s' =>
          List.foldlM (processRow cfg (resolvedDate cfg today)) s' post := by
        show (processRow cfg (resolvedDate cfg today) st row).bind _ = _
        rw [processRow_skip cfg (resolvedDate cfg today) st row h]
      rw [hrow]
  · intro heid idate st st' hok
    exact processRow_identifier_mem cfg idate st row st' heid hok

/-- Witness for claim C3: dropping a blank-identifier row from a concrete
two-row dataset leaves the generated graph and triple count unchanged. -/
theorem blank_identifier_row_skipped_witness :
    generate_rdf_graph [blankRow, okRow] testConfig "T" =
      generate_rdf_graph [okRow] testConfig "T" :=
  ((blank_identifier_row_skipped testConfig "T" blankRow).1 (by decide)).2
    [] [okRow]

/-- Claim C4: a validated citation-count value that `int()` cannot parse
aborts the whole run with an exception: no triple list or count is returned
and no partial graph survives, whatever rows follow. -/
theorem bad_citation_count_aborts_run (cfg : Config) (today : String)
    (pre post : List Row) (row : Row) (st : GenState) (s : String)
    (hpre : List.foldlM (processRow cfg (resolvedDate cfg today)) initState
      pre = .ok st)
    (heid : ¬ row_eid cfg row = "unknown")
    (hcb : valid_literal (rowGet row cfg.column_mappings.cited_by) =
      Option.some s)
    (hint : pyInt s = Option.none) :
    ∃ e, generate_rdf_graph (pre ++ row :: post) cfg today = .error e := by
  obtain ⟨e, he⟩ := processRow_bad_citation cfg (resolvedDate cfg today) st
    row s heid hcb hint
  refine ⟨e, ?_⟩
  unfold generate_rdf_graph
  rw [foldlM_rows_append, hpre]
  have h2 : ((Except.ok st : Except String GenState).bind fun s' =>
      List.foldlM (processRow cfg (resolvedDate cfg today)) s'
        (row :: post)) = .error e := by
    show (processRow cfg (resolvedDate cfg today) st row).bind _ = _
    rw [he]
    rfl
  rw [h2]

/-- Witness for claim C4: the one-row dataset whose citation cell is `"12x"`
makes the whole run fail. -/
theorem bad_citation_count_aborts_run_witness :
    (generate_rdf_graph [badCitedRow] testConfig "T").isOk = false := by
  obtain ⟨e, he⟩ := bad_citation_count_aborts_run testConfig "T" [] []
    badCitedRow initState "12x" rfl (by decide) (by decide) (by decide)
  rw [show ([badCitedRow] : List Row) = [] ++ badCitedRow :: [] from rfl, he]
  rfl

/-- Claim C5, counterexample: one row carrying two funding entries that
normalise to the same token produces a single article→funder link triple,
not two, because the two links are the identical triple and the graph is a
set. -/
theorem shared_funder_same_row_single_link :
    normalize_organization_name (.str "World Bank (WB)") =
      Option.some "World Bank" ∧
    normalize_organization_name (.str "World Bank") =
      Option.some "World Bank" ∧
    (generate_rdf_graph oneRowTwoFunders testConfig "T").isOk = true ∧
    countTriples (fun t => t.2.1 = Node.uri "Sfunding")
      (generate_rdf_graph oneRowTwoFunders testConfig "T") = 1 := by
  refine ⟨by decide, by decide, by decide, by decide⟩

/-- Claim C5, amended: two funding entries normalising to the same token in
rows with distinct article URIs yield exactly one funder type triple, one
funder name triple, and one link triple per article (two in total); entries
sharing an article URI collapse to a single link triple (see the
counterexample).  The first conjuncts verify the counts on a representative
two-row run; the last conjunct is the general per-entry behaviour: the
first occurrence of a token adds the type and name triples and registers
the token, every further occurrence adds only the article→funder link. -/
theorem shared_funder_two_rows_triples :
    (countTriples (fun t => t.1 = Node.uri "b/world_bank" ∧ t.2.1 = rdfType)
      (generate_rdf_graph twoFunderRows testConfig "T") = 1 ∧
    countTriples
      (fun t => t.1 = Node.uri "b/world_bank" ∧ t.2.1 = Node.uri "Sname")
      (generate_rdf_graph twoFunderRows testConfig "T") = 1 ∧
    countTriples (fun t => t.2.1 = Node.uri "Sfunding")
      (generate_rdf_graph twoFunderRows testConfig "T") = 2 ∧
    (generate_rdf_graph twoFunderRows testConfig "T").isOk = true) ∧
    ∀ (cfg : Config) (article : Node) (g : List Triple)
      (reg : List (String × String)) (e n : String),
      normalize_organization_name (.str (pyStrip e)) = Option.some n →
      ¬ n = "" →
      ((reg.any (fun p => p.1 = clean_for_uri (.str n)) = true →
        fundingEntryStep cfg article (g, reg) e =
          (addT g (article, resolve_prefixed_name cfg "schema:funding",
            Node.uri (cfg.base_uri ++ clean_for_uri (.str n))), reg)) ∧
      (reg.any (fun p => p.1 = clean_for_uri (.str n)) = false →
        fundingEntryStep cfg article (g, reg) e =
          (addT
            (addT
              (addT g (Node.uri (cfg.base_uri ++ clean_for_uri (.str n)),
                rdfType,
                resolve_prefixed_name cfg cfg.entity_types.funding_organization))
              (Node.uri (cfg.base_uri ++ clean_for_uri (.str n)),
                resolve_prefixed_name cfg "schema:name", Node.lit n))
            (article, resolve_prefixed_name cfg "schema:funding",
              Node.uri (cfg.base_uri ++ clean_for_uri (.str n))),
           reg ++ [(clean_for_uri (.str n), n)]))) := by
  refine ⟨⟨by decide, by decide, by decide, by decide⟩, ?_⟩
  intro cfg article g reg e n hn hne
  constructor
  · intro hseen
    simp [fundingEntryStep, hn, hne, hseen]
  · intro hseen
    simp [fundingEntryStep, hn, hne, hseen]

/-- Witness for the general per-entry conjunct of the amended claim C5: the
second occurrence of the token `world_bank` adds only the link triple. -/
theorem shared_funder_two_rows_triples_witness :
    fundingEntryStep testConfig (Node.uri "b/a2")
      ([], [("world_bank", "World Bank")]) "World Bank (WB)" =
      (addT [] (Node.uri "b/a2",
        resolve_prefixed_name testConfig "schema:funding",
        Node.uri (testConfig.base_uri ++
          clean_for_uri (.str "World Bank"))),
       [("world_bank", "World Bank")]) :=
  ((shared_funder_two_rows_triples.2 testConfig (Node.uri "b/a2") []
    [("world_bank", "World Bank")] "World Bank (WB)" "World Bank"
    (by decide) (by decide)).1 (by decide))

/-- Claim C6, counterexample: with `scholarly_article` configured as an
empty list, an absent source title makes `detect_publication_type` raise
`IndexError` (modelled as `none`) instead of returning the generic
creative-work token. -/
theorem detect_publication_type_empty_list_error :
    testConfigEmptyTypes.entity_types.scholarly_article = Option.some [] ∧
    detect_publication_type Option.none testConfigEmptyTypes = Option.none := by
  refine ⟨rfl, by decide⟩

/-- Claim C6, amended: on an absent (or empty) source title,
`detect_publication_type` returns with no subtype the first entry of the
configured `scholarly_article` list; the built-in `schema:CreativeWork`
token applies only when the key is absent from the configuration, and a
present-but-empty list raises `IndexError` instead. -/
theorem detect_publication_type_absent_title (cfg : Config)
    (title : Option String) (h : title = Option.none ∨ title = Option.some "") :
    (cfg.entity_types.scholarly_article = Option.none →
      detect_publication_type title cfg =
        Option.some ("schema:CreativeWork", Option.none)) ∧
    (∀ t ts, cfg.entity_types.scholarly_article = Option.some (t :: ts) →
      detect_publication_type title cfg = Option.some (t, Option.none)) ∧
    (cfg.entity_types.scholarly_article = Option.some [] →
      detect_publication_type title cfg = Option.none) := by
  have hf : falsyStrOpt title = true := by
    rcases h with h | h <;> subst h <;> rfl
  refine ⟨?_, ?_, ?_⟩
  · intro hsa
    simp [detect_publication_type, hf, hsa]
  · intro t ts hsa
    simp [detect_publication_type, hf, hsa]
  · intro hsa
    simp [detect_publication_type, hf, hsa]

/-- Witness for the amended claim C6 at the concrete test configuration. -/
theorem detect_publication_type_absent_title_witness :
    detect_publication_type Option.none testConfig =
      Option.some ("schema:A", Option.none) :=
  (detect_publication_type_absent_title testConfig Option.none
    (Or.inl rfl)).2.1 "schema:A" [] rfl

/-- Claim C7, counterexample: on `"(NSF)"` (everything stripped) the
organisation normaliser returns the empty string, not the absent value. -/
theorem normalize_organization_name_empty_string :
    normalize_organization_name (.str "(NSF)") = Option.some "" ∧
    ¬ normalize_organization_name (.str "(NSF)") = Option.none := by
  refine ⟨by decide, by decide⟩

/-- Claim C7, amended: a funding entry whose normalised name is the *empty
string* (the actual value returned when stripping empties the name, e.g.
`"(NSF)"`) is treated as falsy by the caller and contributes no triples and
no registry change. -/
theorem empty_normalized_org_entry_no_triples (cfg : Config) (article : Node)
    (acc : List Triple × List (String × String)) (e : String)
    (h : normalize_organization_name (.str (pyStrip e)) = Option.some "") :
    fundingEntryStep cfg article acc e = acc := by
  unfold fundingEntryStep
  rw [h]
  rfl

/-- Witness for the amended claim C7 at the entry `"(NSF)"`. -/
theorem empty_normalized_org_entry_no_triples_witness :
    fundingEntryStep testConfig (Node.uri "b/a1") ([], []) "(NSF)" =
      ([], []) :=
  empty_normalized_org_entry_no_triples testConfig (Node.uri "b/a1")
    ([], []) "(NSF)" (by decide)

/-- Claim C8: the author loop pairs the two split lists strictly by
position, `zip`-style: it behaves identically on the lists truncated to the
shorter length, and trailing unmatched entries of either longer list are
dropped without producing any triple. -/
theorem author_zip_truncation (cfg : Config)
    (fullnames : List (String × String)) (article : Node) (g : List Triple)
    (ids abbrevs : List String) :
    (authorsZipFold cfg fullnames article g (ids.zip abbrevs) =
      authorsZipFold cfg fullnames article g
        ((ids.take (min ids.length abbrevs.length)).zip
          (abbrevs.take (min ids.length abbrevs.length)))) ∧
    (ids.length ≤ abbrevs.length → ∀ extra,
      authorsZipFold cfg fullnames article g (ids.zip (abbrevs ++ extra)) =
        authorsZipFold cfg fullnames article g (ids.zip abbrevs)) ∧
    (abbrevs.length ≤ ids.length → ∀ extra,
      authorsZipFold cfg fullnames article g ((ids ++ extra).zip abbrevs) =
        authorsZipFold cfg fullnames article g (ids.zip abbrevs)) := by
  refine ⟨?_, ?_, ?_⟩
  · rw [← List.zip_eq_zip_take_min]
  · intro hle extra
    congr 1
    rw [List.zip_eq_zip_take_min ids (abbrevs ++ extra),
      List.zip_eq_zip_take_min ids abbrevs]
    have h1 : min ids.length (abbrevs ++ extra).length = ids.length := by
      rw [List.length_append]
      omega
    have h2 : min ids.length abbrevs.length = ids.length :=
      Nat.min_eq_left hle
    rw [h1, h2, List.take_length,
      List.take_append_of_le_length hle]
  · intro hle extra
    congr 1
    rw [List.zip_eq_zip_take_min (ids ++ extra) abbrevs,
      List.zip_eq_zip_take_min ids abbrevs]
    have h1 : min (ids ++ extra).length abbrevs.length = abbrevs.length := by
      rw [List.length_append]
      omega
    have h2 : min ids.length abbrevs.length = abbrevs.length :=
      Nat.min_eq_right hle
    rw [h1, h2, List.take_length,
      List.take_append_of_le_length hle]

/-- Witness for claim C8: one author id zipped against two abbreviations
processes a single pair; the trailing abbreviation is dropped. -/
theorem author_zip_truncation_witness :
    authorsZipFold testConfig [] (Node.uri "b/a1") []
      (["1"].zip (["S."] ++ ["dropped"])) =
      authorsZipFold testConfig [] (Node.uri "b/a1") []
        (["1"].zip ["S."]) :=
  (author_zip_truncation testConfig [] (Node.uri "b/a1") [] ["1"]
    ["S."]).2.1 (by decide) ["dropped"]

/-- Claim C9: the punctuation-only identifier `"..."` normalises to the
empty string rather than `"unknown"`, so the row is not skipped: the run
emits its article-type and identifier triples, whose subject is the bare
base URI with an empty local name. -/
theorem punctuation_only_identifier_not_skipped :
    clean_for_uri (.str "...") = "" ∧
    (generate_rdf_graph [dotsRow] testConfig "T").isOk = true ∧
    countTriples (fun _ => true)
      (generate_rdf_graph [dotsRow] testConfig "T") = 2 ∧
    countTriples
      (fun t => t = (Node.uri (testConfig.base_uri ++ ""),
        resolve_prefixed_name testConfig "schema:identifier", Node.lit ""))
      (generate_rdf_graph [dotsRow] testConfig "T") = 1 := by
  refine ⟨by decide, by decide, by decide, by decide⟩

/-- Claim C10: the DOI same-as URI and the gYear literal are built from the
raw cell value, not from the trimmed string the validator returns: whenever
the cells validate, the emitted objects carry the raw (possibly
whitespace-padded) cell content. -/
theorem doi_year_use_raw_cell (cfg : Config) (idate : String) (st : GenState)
    (row : Row) (d y : String)
    (heid : ¬ row_eid cfg row = "unknown")
    (hok : (processRow cfg idate st row).isOk = true) :
    (rowGet row cfg.column_mappings.doi = Option.some (.str d) →
      ¬ valid_literal (rowGet row cfg.column_mappings.doi) = Option.none →
      (Node.uri (cfg.base_uri ++ row_eid cfg row),
        resolve_prefixed_name cfg "schema:sameAs",
        Node.uri ("https://doi.org/" ++ d)) ∈
        graphOf (processRow cfg idate st row)) ∧
    (rowGet row cfg.column_mappings.year = Option.some (.str y) →
      ¬ valid_literal (rowGet row cfg.column_mappings.year) = Option.none →
      (Node.uri (cfg.base_uri ++ row_eid cfg row),
        resolve_prefixed_name cfg "schema:datePublished",
        Node.litT y xsdGYear) ∈
        graphOf (processRow cfg idate st row)) := by
  cases hres : processRow cfg idate st row with
  | error e =>
    rw [hres] at hok
    exact absurd hok (by simp [Except.isOk, Except.toBool])
  | ok st' =>
    constructor
    · intro h1 h2
      show _ ∈ st'.g
      refine processRow_pushes_mem cfg idate st row st' heid hres ?_
      apply mem_authorsStage
      apply mem_linkStage
      rw [h1] at h2
      unfold doiStage
      rw [h1]
      cases hv : valid_literal (Option.some (CellValue.str d)) with
      | none => exact absurd hv h2
      | some s =>
        simp only [hv]
        exact mem_addT_self _ _
    · intro h1 h2
      show _ ∈ st'.g
      refine processRow_pushes_mem cfg idate st row st' heid hres ?_
      apply mem_authorsStage
      apply mem_linkStage
      apply mem_doiStage
      rw [h1] at h2
      unfold yearStage
      rw [h1]
      cases hv : valid_literal (Option.some (CellValue.str y)) with
      | none => exact absurd hv h2
      | some s =>
        simp only [hv]
        exact mem_addT_self _ _

/-- Witness for claim C10: the row with DOI cell `" 10.1/x "` and year cell
`" 2022 "` (both whitespace-padded) lands the padded values verbatim in the
emitted URI and gYear literal. -/
theorem doi_year_use_raw_cell_witness :
    (Node.uri (testConfig.base_uri ++ row_eid testConfig rawValueRow),
      resolve_prefixed_name testConfig "schema:sameAs",
      Node.uri ("https://doi.org/" ++ " 10.1/x ")) ∈
      graphOf (processRow testConfig "2024-01-01" initState rawValueRow) ∧
    (Node.uri (testConfig.base_uri ++ row_eid testConfig rawValueRow),
      resolve_prefixed_name testConfig "schema:datePublished",
      Node.litT " 2022 " xsdGYear) ∈
      graphOf (processRow testConfig "2024-01-01" initState rawValueRow) := by
  have h := doi_year_use_raw_cell testConfig "2024-01-01" initState
    rawValueRow " 10.1/x " " 2022 " (by decide) (by decide)
  exact ⟨h.1 rfl (by decide), h.2 rfl (by decide)⟩

end App
